import Mathlib

/-!
Shallow embedding of the LAMMPS web marshalling layer
(`src/cpp/lammpsweb/lammpsweb.h`, `src/cpp/lammpsweb/lammpsweb.cpp`):
the `BufferView` descriptors, the view constructors `makeView` /
`makeRawView`, and the capture operations `captureParticles`,
`captureBonds` and `syncSimulationBox` of class `LAMMPSWeb`.

Modelling conventions:
- Scalars held in buffers are modelled as exact rationals (the C++ stores
  `float`/`double`; rounding of casts is below the abstraction of the spec).
- Raw pointers are modelled as natural-number addresses, `0` being the null
  pointer.  `std::vector<float>::data()` of a nonempty vector is a fixed
  nonzero address carried in the `WebState`; for an empty vector the C++
  helper `pointerFrom` returns `0`.
- The LAMMPS engine itself is an external collaborator: the parts of
  `Atom`, `Domain` and `Force` that `lammpsweb.cpp` reads are modelled as
  record fields, and the engine operation `Domain::unmap` is an abstract
  function field.  `Domain::minimum_image` is modelled from the spec (see
  `minImageComp`).
-/

namespace LammpsWeb

/-- `LAMMPSWeb::ScalarType`: the element-type tag of a `BufferView`. -/
inductive ScalarType where
  | Float32
  | Float64
  | Int32
  | Int64
deriving DecidableEq

/-- `LAMMPSWeb::BufferView`: `{ptr, length, components, type}` with the
C++ member defaults `ptr = 0`, `length = 0`, `components = 1`,
`type = Float32`. -/
structure BufferView where
  ptr : Nat := 0
  length : Nat := 0
  components : Nat := 1
  type : ScalarType := ScalarType.Float32
deriving DecidableEq

/-- `BufferView::empty()`: `ptr == 0 || length == 0`. -/
def BufferView.empty (v : BufferView) : Bool :=
  v.ptr == 0 || v.length == 0

/-- `BufferView::count()`: `components == 0 ? 0 : length / components`. -/
def BufferView.count (v : BufferView) : Nat :=
  if v.components = 0 then 0 else v.length / v.components

/-- The value-initialized `BufferView{}`. -/
def emptyView : BufferView := {}

/-- `LAMMPSWeb::ParticleSnapshot` (value-initialized fields). -/
structure ParticleSnapshot where
  positions : BufferView := {}
  ids : BufferView := {}
  types : BufferView := {}
  count : Nat := 0
deriving DecidableEq

/-- `LAMMPSWeb::BondSnapshot` (value-initialized fields). -/
structure BondSnapshot where
  first : BufferView := {}
  second : BufferView := {}
  count : Nat := 0
deriving DecidableEq

/-- `LAMMPSWeb::BoxSnapshot` (value-initialized fields). -/
structure BoxSnapshot where
  matrix : BufferView := {}
  origin : BufferView := {}
  lengths : BufferView := {}
deriving DecidableEq

/-- A Cartesian triple, as stored in the engine's `double[3]` arrays. -/
structure Vec3 where
  x : ℚ
  y : ℚ
  z : ℚ
deriving DecidableEq

def Vec3.add (a b : Vec3) : Vec3 := ⟨a.x + b.x, a.y + b.y, a.z + b.z⟩

def Vec3.sub (a b : Vec3) : Vec3 := ⟨a.x - b.x, a.y - b.y, a.z - b.z⟩

/-- Component access by axis index (0 = x, 1 = y, 2 = z). -/
def Vec3.comp (v : Vec3) : Fin 3 → ℚ
  | 0 => v.x
  | 1 => v.y
  | 2 => v.z

/-- Squared Euclidean norm of a displacement. -/
def Vec3.normSq (v : Vec3) : ℚ := v.x ^ 2 + v.y ^ 2 + v.z ^ 2

/-- The slice of `LAMMPS_NS::Atom` read by `lammpsweb.cpp`: atom count,
positions, the per-atom fields returned by `lammps_extract_atom`
(an address, `0` when the engine has no such field, plus the image-flag
data when present), bond topology tables (null when absent), and the
global-tag → local-index resolver `Atom::map` (negative = unresolved). -/
structure AtomState where
  natoms : Nat
  x : Nat → Vec3
  imageField : Option (Nat → Int)
  idPtr : Nat
  typePtr : Nat
  nbonds : Nat
  num_bond : Option (Nat → Nat)
  bond_atom : Option (Nat → Nat → Nat)
  map : Nat → Int

/-- The slice of `LAMMPS_NS::Domain` read by `lammpsweb.cpp`:
the periodic flags and per-axis periodic lengths `prd`, the abstract
engine unwrap operation `unmap(position, imageFlags)`, and the corner
table `corners` as holding the values produced by the `box_corners()`
recompute that `syncSimulationBox` requests before reading it. -/
structure DomainState where
  unmap : Vec3 → Int → Vec3
  periodic : Fin 3 → Bool
  prd : Fin 3 → ℚ
  corners : Fin 8 → Vec3

/-- The slice of `LAMMPS_NS::Force` read by `lammpsweb.cpp`. -/
structure ForceState where
  newton_bond : Bool

/-- A live `LAMMPS_NS::LAMMPS` instance at the interface consumed by the
layer; `tagIs64` is the engine build's `sizeof(tagint) == sizeof(int64)`. -/
structure SimState where
  atom : Option AtomState
  domain : Option DomainState
  force : Option ForceState
  tagIs64 : Bool

/-- The `LAMMPSWeb` object: the optional engine instance `m_lmp`, the
owned buffers, and the (stable, nonzero in C++) `data()` addresses of the
six owned buffers. -/
structure WebState where
  lmp : Option SimState
  cellMatrix : List ℚ
  boxSize : List ℚ
  origo : List ℚ
  particlePositions : List ℚ
  bondsPosition1 : List ℚ
  bondsPosition2 : List ℚ
  addrCellMatrix : Nat
  addrBoxSize : Nat
  addrOrigo : Nat
  addrPositions : Nat
  addrBonds1 : Nat
  addrBonds2 : Nat

/-- `scalarForTagint()`: `Int64` when the engine's `tagint` is 8 bytes,
else `Int32`. -/
def scalarForTagint (tagIs64 : Bool) : ScalarType :=
  if tagIs64 then ScalarType.Int64 else ScalarType.Int32

/-- `LAMMPSWeb::makeView` instantiated at `std::vector`:
`pointerFrom(buffer)` is null exactly for an empty vector (`addr` is the
vector's `data()` address, nonzero in C++); a null pointer forces
`length = 0` and `components = 0`. -/
def makeViewVec (buffer : List ℚ) (addr components : Nat)
    (type : ScalarType) : BufferView :=
  let p := if buffer.isEmpty then 0 else addr
  let view : BufferView :=
    { ptr := p, length := buffer.length, components := components, type := type }
  if view.ptr = 0 then
    { view with length := 0, components := 0 }
  else
    view

/-- `LAMMPSWeb::makeView` instantiated at `std::array`: `pointerFrom`
always returns the array's address. -/
def makeViewArr (buffer : List ℚ) (addr components : Nat)
    (type : ScalarType) : BufferView :=
  let view : BufferView :=
    { ptr := addr, length := buffer.length, components := components, type := type }
  if view.ptr = 0 then
    { view with length := 0, components := 0 }
  else
    view

/-- `LAMMPSWeb::makeRawView(ptr, count, components, type)`. -/
def makeRawView (p count components : Nat) (type : ScalarType) : BufferView :=
  if p = 0 ∨ count = 0 ∨ components = 0 then
    {}
  else
    { ptr := p, length := count * components, components := components, type := type }

/-- Modelled from the spec: one axis of the engine `Domain`'s
minimum-image operation (`Domain::minimum_image`, engine code not in this
repository, reached through `applyMinimumImage`).  Per the spec, "for each
periodic axis, adjusts the displacement by whole multiples of the cell's
periodicity so that the component lies within the cell's half-open range";
a non-periodic axis is left unchanged. -/
def minImageComp (periodic : Bool) (len d : ℚ) : ℚ :=
  if periodic then d - len * round (d / len) else d

/-- Modelled from the spec: the engine `Domain`'s minimum-image operation
applied to a Cartesian displacement, axis by axis. -/
def minImage (domain : DomainState) (d : Vec3) : Vec3 :=
  ⟨minImageComp (domain.periodic 0) (domain.prd 0) d.x,
   minImageComp (domain.periodic 1) (domain.prd 1) d.y,
   minImageComp (domain.periodic 2) (domain.prd 2) d.z⟩

/-- The position read for atom `i` in a capture: the raw `atom->x[i]`,
passed through `domain->unmap(position, image[i])` when image data was
extracted. -/
def readPosition (domain : DomainState) (image : Option (Nat → Int))
    (atom : AtomState) (i : Nat) : Vec3 :=
  match image with
  | some img => domain.unmap (atom.x i) (img i)
  | none => atom.x i

/-- `shareBondAcrossRanks`: `sim->force && sim->force->newton_bond`. -/
def shareFlag (sim : SimState) : Bool :=
  match sim.force with
  | some f => f.newton_bond
  | none => false

/-- The image data used by a capture:
`wrapped ? nullptr : lammps_extract_atom(sim, "image")`. -/
def extractImage (wrapped : Bool) (atom : AtomState) : Option (Nat → Int) :=
  if wrapped then none else atom.imageField

/-- The position buffer contents written by `captureParticles`' loop:
three consecutive scalars per atom, in local-index order. -/
def particleList (domain : DomainState) (image : Option (Nat → Int))
    (atom : AtomState) : List ℚ :=
  (List.range atom.natoms).flatMap fun i =>
    [(readPosition domain image atom i).x,
     (readPosition domain image atom i).y,
     (readPosition domain image atom i).z]

/-- `LAMMPSWeb::captureParticles(bool wrapped)`: returns the updated
`LAMMPSWeb` state (its position buffer rewritten) and the snapshot. -/
def captureParticles (w : WebState) (wrapped : Bool) :
    WebState × ParticleSnapshot :=
  match w.lmp with
  | none => ({ w with particlePositions := [] }, {})
  | some sim =>
    match sim.atom, sim.domain with
    | some atom, some domain =>
      let numAtoms := atom.natoms
      if numAtoms = 0 then
        ({ w with particlePositions := [] }, {})
      else
        let positions := particleList domain (extractImage wrapped atom) atom
        let snapshot : ParticleSnapshot :=
          { count := numAtoms
            positions := makeViewVec positions w.addrPositions 3 ScalarType.Float32
            ids := makeRawView atom.idPtr numAtoms 1 (scalarForTagint sim.tagIs64)
            types := makeRawView atom.typePtr numAtoms 1 ScalarType.Int32 }
        ({ w with particlePositions := positions }, snapshot)
    | _, _ => ({ w with particlePositions := [] }, {})

/-- One candidate bond entry of `captureBonds`' inner loop: owner local
index `i`, bond slot `b`.  Returns the endpoint pair appended to the
buffers, or `none` when the entry is skipped (unresolved / non-resident
partner, or the dedup rule). -/
def bondEntry (domain : DomainState) (image : Option (Nat → Int))
    (atom : AtomState) (bondAtom : Nat → Nat → Nat)
    (share wrapped : Bool) (i b : Nat) : Option (Vec3 × Vec3) :=
  let mapped := atom.map (bondAtom i b)
  if mapped < 0 ∨ (atom.natoms : Int) ≤ mapped then
    none
  else if ¬share ∧ i < mapped.toNat then
    none
  else
    let first := readPosition domain image atom i
    let second := readPosition domain image atom mapped.toNat
    if wrapped then
      some (first, second)
    else
      some (first, first.add (minImage domain (second.sub first)))

/-- The list of endpoint pairs `captureBonds` appends, in loop order. -/
def collectBonds (domain : DomainState) (image : Option (Nat → Int))
    (atom : AtomState) (numBond : Nat → Nat) (bondAtom : Nat → Nat → Nat)
    (share wrapped : Bool) : List (Vec3 × Vec3) :=
  (List.range atom.natoms).flatMap fun i =>
    (List.range (numBond i)).filterMap fun b =>
      bondEntry domain image atom bondAtom share wrapped i b

/-- The first-endpoint buffer contents: three scalars per emitted bond. -/
def flattenFirst (pairs : List (Vec3 × Vec3)) : List ℚ :=
  pairs.flatMap fun pr => [pr.1.x, pr.1.y, pr.1.z]

/-- The second-endpoint buffer contents: three scalars per emitted bond. -/
def flattenSecond (pairs : List (Vec3 × Vec3)) : List ℚ :=
  pairs.flatMap fun pr => [pr.2.x, pr.2.y, pr.2.z]

/-- `LAMMPSWeb::captureBonds(bool wrapped)`: returns the updated
`LAMMPSWeb` state (both bond buffers rewritten) and the snapshot. -/
def captureBonds (w : WebState) (wrapped : Bool) : WebState × BondSnapshot :=
  match w.lmp with
  | none => ({ w with bondsPosition1 := [], bondsPosition2 := [] }, {})
  | some sim =>
    match sim.atom, sim.domain with
    | some atom, some domain =>
      match atom.num_bond, atom.bond_atom with
      | some numBond, some bondAtom =>
        if atom.nbonds = 0 then
          ({ w with bondsPosition1 := [], bondsPosition2 := [] }, {})
        else
          let image := extractImage wrapped atom
          let share := shareFlag sim
          let pairs := collectBonds domain image atom numBond bondAtom share wrapped
          let pos1 := flattenFirst pairs
          let pos2 := flattenSecond pairs
          let snapshot : BondSnapshot :=
            { count := pos1.length / 3
              first := makeViewVec pos1 w.addrBonds1 3 ScalarType.Float32
              second := makeViewVec pos2 w.addrBonds2 3 ScalarType.Float32 }
          ({ w with bondsPosition1 := pos1, bondsPosition2 := pos2 }, snapshot)
      | _, _ => ({ w with bondsPosition1 := [], bondsPosition2 := [] }, {})
    | _, _ => ({ w with bondsPosition1 := [], bondsPosition2 := [] }, {})

/-- `LAMMPSWeb::syncSimulationBox()`: returns the updated `LAMMPSWeb`
state (cell-matrix, origin and box-size buffers rewritten) and the
snapshot.  With a domain present it reads the corner table after the
`box_corners()` recompute: `origin = corners[0]`, `a = corners[1]`,
`b = corners[2]`, `c = corners[4]`. -/
def syncSimulationBox (w : WebState) : WebState × BoxSnapshot :=
  match w.lmp with
  | none =>
    ({ w with cellMatrix := List.replicate 9 0
              boxSize := List.replicate 3 0
              origo := List.replicate 3 0 }, {})
  | some sim =>
    match sim.domain with
    | none =>
      ({ w with cellMatrix := List.replicate 9 0
                boxSize := List.replicate 3 0
                origo := List.replicate 3 0 }, {})
    | some domain =>
      let origin := domain.corners 0
      let a := domain.corners 1
      let b := domain.corners 2
      let c := domain.corners 4
      let cell := [a.x - origin.x, a.y - origin.y, a.z - origin.z,
                   b.x - origin.x, b.y - origin.y, b.z - origin.z,
                   c.x - origin.x, c.y - origin.y, c.z - origin.z]
      let sizes := [domain.prd 0, domain.prd 1, domain.prd 2]
      let org := [origin.x, origin.y, origin.z]
      let snapshot : BoxSnapshot :=
        { matrix := makeViewArr cell w.addrCellMatrix 3 ScalarType.Float32
          origin := makeViewArr org w.addrOrigo 3 ScalarType.Float32
          lengths := makeViewArr sizes w.addrBoxSize 3 ScalarType.Float32 }
      ({ w with cellMatrix := cell, boxSize := sizes, origo := org }, snapshot)

/-- `LAMMPSWeb::resetStaticBuffers()`. -/
def resetStaticBuffers (w : WebState) : WebState :=
  { w with cellMatrix := List.replicate 9 0
           boxSize := List.replicate 3 0
           origo := List.replicate 3 0
           particlePositions := []
           bondsPosition1 := []
           bondsPosition2 := [] }

/-- `LAMMPSWeb::stop()`. -/
def stop (w : WebState) : WebState :=
  match w.lmp with
  | none => w
  | some _ => resetStaticBuffers { w with lmp := none }

/-- `LAMMPSWeb::start()`: `openResult` is the outcome of the external
`lammps_open_no_mpi` call (`none` = null instance).  Throws exactly when
the instance fails to open. -/
def start (w : WebState) (openResult : Option SimState) :
    Except String WebState :=
  let w' := if w.lmp.isSome then stop w else w
  match openResult with
  | none => Except.error "Failed to open LAMMPS instance"
  | some inst => Except.ok { w' with lmp := some inst }

/-- The well-formedness invariant of claim C7 for a single view. -/
def viewWF (v : BufferView) : Prop :=
  v.components ∣ v.length
    ∧ (v.ptr = 0 ↔ v.length = 0)
    ∧ v.count = (if 0 < v.components then v.length / v.components else 0)

/-- The fail-soft condition of `captureParticles`: no simulation, no atom
table, no domain, or zero atoms. -/
def particlesDegraded (w : WebState) : Prop :=
  match w.lmp with
  | none => True
  | some sim =>
    match sim.atom, sim.domain with
    | some atom, some _ => atom.natoms = 0
    | _, _ => True

/-- The fail-soft condition of `captureBonds`: no simulation, no atom
table, no domain, zero bonds, or missing bond tables. -/
def bondsDegraded (w : WebState) : Prop :=
  match w.lmp with
  | none => True
  | some sim =>
    match sim.atom, sim.domain with
    | some atom, some _ =>
      match atom.num_bond, atom.bond_atom with
      | some _, some _ => atom.nbonds = 0
      | _, _ => True
    | _, _ => True

/-- The fail-soft condition of `syncSimulationBox`: no simulation or no
domain. -/
def boxDegraded (w : WebState) : Prop :=
  match w.lmp with
  | none => True
  | some sim =>
    match sim.domain with
    | some _ => False
    | none => True

/-- The partner of bond slot `b` of owner `i` resolves to a resident local
index: the negation of the skip test
`mappedIndex < 0 || mappedIndex >= atom->natoms`. -/
def partnerResident (atom : AtomState) (bondAtom : Nat → Nat → Nat)
    (i b : Nat) : Bool :=
  decide (0 ≤ atom.map (bondAtom i b)
    ∧ atom.map (bondAtom i b) < (atom.natoms : Int))

/-- The resolved local index of the bond partner of slot `b` of owner `i`. -/
def partnerIndex (atom : AtomState) (bondAtom : Nat → Nat → Nat)
    (i b : Nat) : Nat :=
  (atom.map (bondAtom i b)).toNat

/-- The number of bond-table entries whose partner resolves to a resident
local index strictly below the owner's local index — one representative
per undirected bond when each bond is stored in both endpoints' lists. -/
def strictBondCount (atom : AtomState) (numBond : Nat → Nat)
    (bondAtom : Nat → Nat → Nat) : Nat :=
  ((List.range atom.natoms).flatMap fun i =>
    (List.range (numBond i)).filter fun b =>
      partnerResident atom bondAtom i b
        && decide (partnerIndex atom bondAtom i b < i)).length

/-- Example engine domain: orthogonal box periodic along x with length 10
(the spec §8 boundary scenario), identity unwrap — the image flags are all
zero in the examples. -/
def exampleDomain : DomainState :=
  { unmap := fun p _ => p
    periodic := fun a => a == 0
    prd := fun a => if a == 0 then 10 else 20
    corners := fun c =>
      if c == 1 then ⟨10, 0, 0⟩
      else if c == 2 then ⟨0, 20, 0⟩
      else if c == 4 then ⟨0, 0, 20⟩
      else if c == 0 then ⟨0, 0, 0⟩
      else ⟨10, 20, 20⟩ }

/-- Example atom table: two atoms at x = 0.5 and x = 9.5 (tags 1 and 2)
bonded to each other, the bond stored in both atoms' lists. -/
def exampleAtom : AtomState :=
  { natoms := 2
    x := fun i => if i == 0 then ⟨1/2, 0, 0⟩ else ⟨19/2, 0, 0⟩
    imageField := some fun _ => 0
    idPtr := 21
    typePtr := 22
    nbonds := 1
    num_bond := some fun i => if i < 2 then 1 else 0
    bond_atom := some fun i _ => if i == 0 then 2 else 1
    map := fun t => if t == 1 then 0 else if t == 2 then 1 else -1 }

def exampleSim : SimState :=
  { atom := some exampleAtom
    domain := some exampleDomain
    force := none
    tagIs64 := false }

/-- Example `LAMMPSWeb` object holding the example simulation. -/
def exampleWeb : WebState :=
  { lmp := some exampleSim
    cellMatrix := []
    boxSize := []
    origo := []
    particlePositions := []
    bondsPosition1 := []
    bondsPosition2 := []
    addrCellMatrix := 11
    addrBoxSize := 12
    addrOrigo := 13
    addrPositions := 14
    addrBonds1 := 15
    addrBonds2 := 16 }

/-- A zero-atom engine: simulation, atom table and domain present, id and
type fields present, but no atoms. -/
def zeroAtomAtom : AtomState :=
  { natoms := 0
    x := fun _ => ⟨0, 0, 0⟩
    imageField := none
    idPtr := 21
    typePtr := 22
    nbonds := 0
    num_bond := none
    bond_atom := none
    map := fun _ => -1 }

def zeroAtomSim : SimState :=
  { atom := some zeroAtomAtom
    domain := some exampleDomain
    force := none
    tagIs64 := false }

def zeroAtomWeb : WebState :=
  { exampleWeb with lmp := some zeroAtomSim }

/-- A `LAMMPSWeb` object with no engine instance and stale buffer
contents. -/
def idleWeb : WebState :=
  { exampleWeb with
      lmp := none
      cellMatrix := [7]
      boxSize := [7]
      origo := [7]
      particlePositions := [7]
      bondsPosition1 := [7]
      bondsPosition2 := [7] }

/-! ### Helper lemmas -/

/-- Flattening three scalars per element triples the length. -/
theorem length_flatMap_triple {α : Type} (l : List α) (f g h : α → ℚ) :
    (l.flatMap fun a => [f a, g a, h a]).length = 3 * l.length := by
  induction l with
  | nil => simp
  | cons a t ih =>
    simp only [List.flatMap_cons, List.length_append, List.length_cons,
      List.length_nil, ih]
    ring

theorem viewWF_default : viewWF ({} : BufferView) := by
  refine ⟨⟨0, rfl⟩, by simp, ?_⟩
  simp [BufferView.count]

theorem makeViewVec_of_empty (addr components : Nat) (ty : ScalarType) :
    makeViewVec [] addr components ty =
      { ptr := 0, length := 0, components := 0, type := ty } := by
  simp [makeViewVec]

theorem makeViewVec_of_nonempty (buffer : List ℚ) (addr components : Nat)
    (ty : ScalarType) (hbuf : buffer ≠ []) (haddr : addr ≠ 0) :
    makeViewVec buffer addr components ty =
      { ptr := addr, length := buffer.length, components := components,
        type := ty } := by
  have h : buffer.isEmpty = false := by
    simpa [List.isEmpty_iff] using hbuf
  simp [makeViewVec, h, haddr]

theorem makeViewVec_of_addrZero (buffer : List ℚ) (components : Nat)
    (ty : ScalarType) :
    makeViewVec buffer 0 components ty =
      { ptr := 0, length := 0, components := 0, type := ty } := by
  by_cases h : buffer.isEmpty <;> simp [makeViewVec, h]

theorem makeViewArr_of_addr (buffer : List ℚ) (addr components : Nat)
    (ty : ScalarType) (haddr : addr ≠ 0) :
    makeViewArr buffer addr components ty =
      { ptr := addr, length := buffer.length, components := components,
        type := ty } := by
  simp [makeViewArr, haddr]

theorem makeViewArr_of_addrZero (buffer : List ℚ) (components : Nat)
    (ty : ScalarType) :
    makeViewArr buffer 0 components ty =
      { ptr := 0, length := 0, components := 0, type := ty } := by
  simp [makeViewArr]

theorem makeRawView_of_present (p count components : Nat) (ty : ScalarType)
    (hp : p ≠ 0) (hc : count ≠ 0) (hcomp : components ≠ 0) :
    makeRawView p count components ty =
      { ptr := p, length := count * components, components := components,
        type := ty } := by
  simp [makeRawView, hp, hc, hcomp]

theorem makeRawView_of_absent (p count components : Nat) (ty : ScalarType)
    (h : p = 0 ∨ count = 0 ∨ components = 0) :
    makeRawView p count components ty = emptyView := by
  simp [makeRawView, h, emptyView]

theorem viewWF_makeViewVec (buffer : List ℚ) (addr components : Nat)
    (ty : ScalarType) (hdvd : components ∣ buffer.length) :
    viewWF (makeViewVec buffer addr components ty) := by
  rcases List.eq_nil_or_concat buffer with hbuf | hbuf
  · rw [hbuf, makeViewVec_of_empty]
    exact ⟨⟨0, rfl⟩, by simp, by simp [BufferView.count]⟩
  · have hne : buffer ≠ [] := by
      rcases hbuf with ⟨l, a, rfl⟩
      simp
    by_cases haddr : addr = 0
    · rw [haddr, makeViewVec_of_addrZero]
      exact ⟨⟨0, rfl⟩, by simp, by simp [BufferView.count]⟩
    · rw [makeViewVec_of_nonempty buffer addr components ty hne haddr]
      have hlen : buffer.length ≠ 0 := by
        simpa [List.length_eq_zero] using hne
      have hcomp : components ≠ 0 := by
        rintro rfl
        exact hlen (Nat.eq_zero_of_zero_dvd hdvd)
      refine ⟨hdvd, by simp [haddr, hlen], ?_⟩
      simp [BufferView.count, hcomp, Nat.pos_of_ne_zero hcomp]

theorem viewWF_makeViewArr (buffer : List ℚ) (addr components : Nat)
    (ty : ScalarType) (hdvd : components ∣ buffer.length)
    (hlen : buffer.length ≠ 0) :
    viewWF (makeViewArr buffer addr components ty) := by
  by_cases haddr : addr = 0
  · rw [haddr, makeViewArr_of_addrZero]
    exact ⟨⟨0, rfl⟩, by simp, by simp [BufferView.count]⟩
  · rw [makeViewArr_of_addr buffer addr components ty haddr]
    have hcomp : components ≠ 0 := by
      rintro rfl
      exact hlen (Nat.eq_zero_of_zero_dvd hdvd)
    refine ⟨hdvd, by simp [haddr, hlen], ?_⟩
    simp [BufferView.count, hcomp, Nat.pos_of_ne_zero hcomp]

theorem viewWF_makeRawView (p count components : Nat) (ty : ScalarType) :
    viewWF (makeRawView p count components ty) := by
  by_cases hdeg : p = 0 ∨ count = 0 ∨ components = 0
  · rw [makeRawView_of_absent p count components ty hdeg]
    exact viewWF_default
  · push_neg at hdeg
    obtain ⟨hp, hc, hcomp⟩ := hdeg
    rw [makeRawView_of_present p count components ty hp hc hcomp]
    refine ⟨⟨count, Nat.mul_comm count components⟩, by simp [hp, hc, hcomp], ?_⟩
    simp [BufferView.count, hcomp, Nat.pos_of_ne_zero hcomp,
      Nat.mul_div_cancel count (Nat.pos_of_ne_zero hcomp)]

theorem captureParticles_degraded (w : WebState) (wrapped : Bool)
    (h : particlesDegraded w) :
    captureParticles w wrapped = ({ w with particlePositions := [] }, {}) := by
  cases hl : w.lmp with
  | none => simp only [captureParticles, hl]
  | some sim =>
    cases ha : sim.atom with
    | none => simp only [captureParticles, hl, ha]
    | some atom =>
      cases hd : sim.domain with
      | none => simp only [captureParticles, hl, ha, hd]
      | some domain =>
        have hn : atom.natoms = 0 := by
          unfold particlesDegraded at h
          rw [hl] at h
          simpa [ha, hd] using h
        simp only [captureParticles, hl, ha, hd, hn]
        simp

theorem captureParticles_active (w : WebState) (wrapped : Bool)
    (sim : SimState) (atom : AtomState) (domain : DomainState)
    (h1 : w.lmp = some sim) (h2 : sim.atom = some atom)
    (h3 : sim.domain = some domain) (hn : atom.natoms ≠ 0) :
    captureParticles w wrapped =
      ({ w with particlePositions :=
          particleList domain (extractImage wrapped atom) atom },
       { count := atom.natoms
         positions := makeViewVec
           (particleList domain (extractImage wrapped atom) atom)
           w.addrPositions 3 ScalarType.Float32
         ids := makeRawView atom.idPtr atom.natoms 1
           (scalarForTagint sim.tagIs64)
         types := makeRawView atom.typePtr atom.natoms 1
           ScalarType.Int32 }) := by
  simp only [captureParticles, h1, h2, h3, if_neg hn]

theorem captureBonds_degraded (w : WebState) (wrapped : Bool)
    (h : bondsDegraded w) :
    captureBonds w wrapped =
      ({ w with bondsPosition1 := [], bondsPosition2 := [] }, {}) := by
  cases hl : w.lmp with
  | none => simp only [captureBonds, hl]
  | some sim =>
    cases ha : sim.atom with
    | none => simp only [captureBonds, hl, ha]
    | some atom =>
      cases hd : sim.domain with
      | none => simp only [captureBonds, hl, ha, hd]
      | some domain =>
        cases hnb : atom.num_bond with
        | none => simp only [captureBonds, hl, ha, hd, hnb]
        | some numBond =>
          cases hba : atom.bond_atom with
          | none => simp only [captureBonds, hl, ha, hd, hnb, hba]
          | some bondAtom =>
            have hn : atom.nbonds = 0 := by
              unfold bondsDegraded at h
              rw [hl] at h
              simpa [ha, hd, hnb, hba] using h
            simp only [captureBonds, hl, ha, hd, hnb, hba, hn]
            simp

theorem captureBonds_active (w : WebState) (wrapped : Bool)
    (sim : SimState) (atom : AtomState) (domain : DomainState)
    (numBond : Nat → Nat) (bondAtom : Nat → Nat → Nat)
    (h1 : w.lmp = some sim) (h2 : sim.atom = some atom)
    (h3 : sim.domain = some domain) (h4 : atom.num_bond = some numBond)
    (h5 : atom.bond_atom = some bondAtom) (hn : atom.nbonds ≠ 0) :
    captureBonds w wrapped =
      ({ w with
          bondsPosition1 := flattenFirst
            (collectBonds domain (extractImage wrapped atom) atom numBond
              bondAtom (shareFlag sim) wrapped)
          bondsPosition2 := flattenSecond
            (collectBonds domain (extractImage wrapped atom) atom numBond
              bondAtom (shareFlag sim) wrapped) },
       { count := (flattenFirst
            (collectBonds domain (extractImage wrapped atom) atom numBond
              bondAtom (shareFlag sim) wrapped)).length / 3
         first := makeViewVec
           (flattenFirst
             (collectBonds domain (extractImage wrapped atom) atom numBond
               bondAtom (shareFlag sim) wrapped))
           w.addrBonds1 3 ScalarType.Float32
         second := makeViewVec
           (flattenSecond
             (collectBonds domain (extractImage wrapped atom) atom numBond
               bondAtom (shareFlag sim) wrapped))
           w.addrBonds2 3 ScalarType.Float32 }) := by
  simp only [captureBonds, h1, h2, h3, h4, h5, if_neg hn]

theorem syncSimulationBox_degraded (w : WebState) (h : boxDegraded w) :
    syncSimulationBox w =
      ({ w with cellMatrix := List.replicate 9 0
                boxSize := List.replicate 3 0
                origo := List.replicate 3 0 }, {}) := by
  cases hl : w.lmp with
  | none => simp only [syncSimulationBox, hl]
  | some sim =>
    cases hd : sim.domain with
    | none => simp only [syncSimulationBox, hl, hd]
    | some domain =>
      exfalso
      unfold boxDegraded at h
      rw [hl] at h
      simp [hd] at h

theorem syncSimulationBox_active (w : WebState) (sim : SimState)
    (domain : DomainState) (h1 : w.lmp = some sim)
    (h2 : sim.domain = some domain) :
    syncSimulationBox w =
      ({ w with
          cellMatrix :=
            [(domain.corners 1).x - (domain.corners 0).x,
             (domain.corners 1).y - (domain.corners 0).y,
             (domain.corners 1).z - (domain.corners 0).z,
             (domain.corners 2).x - (domain.corners 0).x,
             (domain.corners 2).y - (domain.corners 0).y,
             (domain.corners 2).z - (domain.corners 0).z,
             (domain.corners 4).x - (domain.corners 0).x,
             (domain.corners 4).y - (domain.corners 0).y,
             (domain.corners 4).z - (domain.corners 0).z]
          boxSize := [domain.prd 0, domain.prd 1, domain.prd 2]
          origo := [(domain.corners 0).x, (domain.corners 0).y,
                    (domain.corners 0).z] },
       { matrix := makeViewArr
           [(domain.corners 1).x - (domain.corners 0).x,
            (domain.corners 1).y - (domain.corners 0).y,
            (domain.corners 1).z - (domain.corners 0).z,
            (domain.corners 2).x - (domain.corners 0).x,
            (domain.corners 2).y - (domain.corners 0).y,
            (domain.corners 2).z - (domain.corners 0).z,
            (domain.corners 4).x - (domain.corners 0).x,
            (domain.corners 4).y - (domain.corners 0).y,
            (domain.corners 4).z - (domain.corners 0).z]
           w.addrCellMatrix 3 ScalarType.Float32
         origin := makeViewArr
           [(domain.corners 0).x, (domain.corners 0).y, (domain.corners 0).z]
           w.addrOrigo 3 ScalarType.Float32
         lengths := makeViewArr [domain.prd 0, domain.prd 1, domain.prd 2]
           w.addrBoxSize 3 ScalarType.Float32 }) := by
  simp only [syncSimulationBox, h1, h2]

/-- Either fail-soft condition holds or the full active shape is
available, for each capture. -/
theorem particles_cases (w : WebState) :
    particlesDegraded w
    ∨ ∃ sim atom domain, w.lmp = some sim ∧ sim.atom = some atom
        ∧ sim.domain = some domain ∧ atom.natoms ≠ 0 := by
  unfold particlesDegraded
  cases hl : w.lmp with
  | none => exact Or.inl trivial
  | some sim =>
    cases ha : sim.atom with
    | none => exact Or.inl (by simp [ha])
    | some atom =>
      cases hd : sim.domain with
      | none => exact Or.inl (by simp [ha, hd])
      | some domain =>
        by_cases hn : atom.natoms = 0
        · exact Or.inl (by simp [ha, hd, hn])
        · exact Or.inr ⟨sim, atom, domain, rfl, ha, hd, hn⟩

theorem bonds_cases (w : WebState) :
    bondsDegraded w
    ∨ ∃ sim atom domain numBond bondAtom,
        w.lmp = some sim ∧ sim.atom = some atom ∧ sim.domain = some domain
        ∧ atom.num_bond = some numBond ∧ atom.bond_atom = some bondAtom
        ∧ atom.nbonds ≠ 0 := by
  unfold bondsDegraded
  cases hl : w.lmp with
  | none => exact Or.inl trivial
  | some sim =>
    cases ha : sim.atom with
    | none => exact Or.inl (by simp [ha])
    | some atom =>
      cases hd : sim.domain with
      | none => exact Or.inl (by simp [ha, hd])
      | some domain =>
        cases hnb : atom.num_bond with
        | none => exact Or.inl (by simp [ha, hd, hnb])
        | some numBond =>
          cases hba : atom.bond_atom with
          | none => exact Or.inl (by simp [ha, hd, hnb, hba])
          | some bondAtom =>
            by_cases hn : atom.nbonds = 0
            · exact Or.inl (by simp [ha, hd, hnb, hba, hn])
            · exact Or.inr ⟨sim, atom, domain, numBond, bondAtom, rfl, ha,
                hd, hnb, hba, hn⟩

theorem box_cases (w : WebState) :
    boxDegraded w
    ∨ ∃ sim domain, w.lmp = some sim ∧ sim.domain = some domain := by
  unfold boxDegraded
  cases hl : w.lmp with
  | none => exact Or.inl trivial
  | some sim =>
    cases hd : sim.domain with
    | none => exact Or.inl (by simp [hd])
    | some domain => exact Or.inr ⟨sim, domain, rfl, hd⟩

theorem particleList_length (domain : DomainState)
    (image : Option (Nat → Int)) (atom : AtomState) :
    (particleList domain image atom).length = 3 * atom.natoms := by
  unfold particleList
  rw [length_flatMap_triple]
  simp

theorem flattenFirst_length (pairs : List (Vec3 × Vec3)) :
    (flattenFirst pairs).length = 3 * pairs.length :=
  length_flatMap_triple pairs _ _ _

theorem flattenSecond_length (pairs : List (Vec3 × Vec3)) :
    (flattenSecond pairs).length = 3 * pairs.length :=
  length_flatMap_triple pairs _ _ _

/-! ### Claim theorems -/

/-- C6: `makeView(buffer, components, type)` produces a view whose length
equals the buffer's current element count, except that for an empty buffer
the view's length and components are both forced to 0 regardless of the
requested components; and `makeRawView(pointer, count, components, type)`
returns the empty view (handle 0, length 0) whenever pointer is null or
count is 0 or components is 0, and otherwise a view of length
`count * components` over the given pointer. -/
theorem makeView_contract (buffer : List ℚ) (addr components : Nat)
    (ty : ScalarType) (p rawCount rawComponents : Nat) (rawTy : ScalarType)
    (haddr : addr ≠ 0) :
    (makeViewVec buffer addr components ty).length = buffer.length
    ∧ (buffer.isEmpty = true →
        (makeViewVec buffer addr components ty).length = 0
        ∧ (makeViewVec buffer addr components ty).components = 0)
    ∧ (p = 0 ∨ rawCount = 0 ∨ rawComponents = 0 →
        makeRawView p rawCount rawComponents rawTy = emptyView)
    ∧ (p ≠ 0 → rawCount ≠ 0 → rawComponents ≠ 0 →
        makeRawView p rawCount rawComponents rawTy =
          { ptr := p, length := rawCount * rawComponents,
            components := rawComponents, type := rawTy }) := by
  refine ⟨?_, ?_, ?_, ?_⟩
  · unfold makeViewVec
    by_cases hbuf : buffer.isEmpty
    · have : buffer.length = 0 := by
        simpa [List.isEmpty_iff_length_eq_zero] using hbuf
      simp [hbuf, this]
    · simp [hbuf, haddr]
  · intro hbuf
    unfold makeViewVec
    simp [hbuf]
  · intro hdeg
    unfold makeRawView emptyView
    simp [hdeg]
  · intro hp hc hcomp
    unfold makeRawView
    simp [hp, hc, hcomp]

/-- Witness for `makeView_contract` at a concrete buffer and raw field. -/
theorem makeView_contract_witness :
    (7 : Nat) ≠ 0
    ∧ ((makeViewVec [(1 : ℚ), 2, 3] 7 3 ScalarType.Float32).length = 3
        ∧ (([(1 : ℚ), 2, 3].isEmpty = true) →
            (makeViewVec [(1 : ℚ), 2, 3] 7 3 ScalarType.Float32).length = 0
            ∧ (makeViewVec [(1 : ℚ), 2, 3] 7 3 ScalarType.Float32).components = 0)
        ∧ ((5 : Nat) = 0 ∨ (2 : Nat) = 0 ∨ (1 : Nat) = 0 →
            makeRawView 5 2 1 ScalarType.Int32 = emptyView)
        ∧ ((5 : Nat) ≠ 0 → (2 : Nat) ≠ 0 → (1 : Nat) ≠ 0 →
            makeRawView 5 2 1 ScalarType.Int32 =
              { ptr := 5, length := 2 * 1, components := 1,
                type := ScalarType.Int32 })) :=
  ⟨by decide,
   makeView_contract [(1 : ℚ), 2, 3] 7 3 ScalarType.Float32 5 2 1
     ScalarType.Int32 (by decide)⟩

/-- C7: every `BufferView` published by any capture operation satisfies:
`length` is a multiple of `components`; the view is never partially
populated — `ptr = 0` exactly when `length = 0`, so an empty or absent
source yields a view with handle 0 and length 0; and `count()` equals
`length / components` when `components > 0` and 0 otherwise
(see `viewWF`). -/
theorem published_views_wellformed (w : WebState) (wrapped : Bool) :
    viewWF (captureParticles w wrapped).2.positions
    ∧ viewWF (captureParticles w wrapped).2.ids
    ∧ viewWF (captureParticles w wrapped).2.types
    ∧ viewWF (captureBonds w wrapped).2.first
    ∧ viewWF (captureBonds w wrapped).2.second
    ∧ viewWF (syncSimulationBox w).2.matrix
    ∧ viewWF (syncSimulationBox w).2.origin
    ∧ viewWF (syncSimulationBox w).2.lengths := by
  have hpart : viewWF (captureParticles w wrapped).2.positions
      ∧ viewWF (captureParticles w wrapped).2.ids
      ∧ viewWF (captureParticles w wrapped).2.types := by
    rcases particles_cases w with hdeg | ⟨sim, atom, domain, h1, h2, h3, hn⟩
    · rw [captureParticles_degraded w wrapped hdeg]
      exact ⟨viewWF_default, viewWF_default, viewWF_default⟩
    · rw [captureParticles_active w wrapped sim atom domain h1 h2 h3 hn]
      refine ⟨?_, viewWF_makeRawView _ _ _ _, viewWF_makeRawView _ _ _ _⟩
      apply viewWF_makeViewVec
      rw [particleList_length]
      exact ⟨atom.natoms, rfl⟩
  have hbond : viewWF (captureBonds w wrapped).2.first
      ∧ viewWF (captureBonds w wrapped).2.second := by
    rcases bonds_cases w with hdeg |
      ⟨sim, atom, domain, numBond, bondAtom, h1, h2, h3, h4, h5, hn⟩
    · rw [captureBonds_degraded w wrapped hdeg]
      exact ⟨viewWF_default, viewWF_default⟩
    · rw [captureBonds_active w wrapped sim atom domain numBond bondAtom
        h1 h2 h3 h4 h5 hn]
      constructor
      · apply viewWF_makeViewVec
        rw [flattenFirst_length]
        exact ⟨_, rfl⟩
      · apply viewWF_makeViewVec
        rw [flattenSecond_length]
        exact ⟨_, rfl⟩
  have hbox : viewWF (syncSimulationBox w).2.matrix
      ∧ viewWF (syncSimulationBox w).2.origin
      ∧ viewWF (syncSimulationBox w).2.lengths := by
    rcases box_cases w with hdeg | ⟨sim, domain, h1, h2⟩
    · rw [syncSimulationBox_degraded w hdeg]
      exact ⟨viewWF_default, viewWF_default, viewWF_default⟩
    · rw [syncSimulationBox_active w sim domain h1 h2]
      refine ⟨?_, ?_, ?_⟩
      · exact viewWF_makeViewArr _ _ _ _ (by norm_num) (by simp)
      · exact viewWF_makeViewArr _ _ _ _ (by norm_num) (by simp)
      · exact viewWF_makeViewArr _ _ _ _ (by norm_num) (by simp)
  exact ⟨hpart.1, hpart.2.1, hpart.2.2, hbond.1, hbond.2, hbox.1,
    hbox.2.1, hbox.2.2⟩

/-- C4: no capture operation throws or aborts — each is a total function
into plain snapshots in this embedding; for every engine state satisfying
a capture's missing-state condition (missing simulation, missing atom
table, missing domain, or zero relevant entities) that capture returns
the value-initialized snapshot, all of whose views have handle 0 and
length 0 (`empty() == true`) and whose count is 0; and `start` raises an
error exactly when the engine instance fails to initialize. -/
theorem capture_fail_soft :
    (∀ w wrapped, particlesDegraded w →
      (captureParticles w wrapped).2 = {}
      ∧ (captureParticles w wrapped).2.positions.empty = true
      ∧ (captureParticles w wrapped).2.ids.empty = true
      ∧ (captureParticles w wrapped).2.types.empty = true
      ∧ (captureParticles w wrapped).2.count = 0)
    ∧ (∀ w wrapped, bondsDegraded w →
      (captureBonds w wrapped).2 = {}
      ∧ (captureBonds w wrapped).2.first.empty = true
      ∧ (captureBonds w wrapped).2.second.empty = true
      ∧ (captureBonds w wrapped).2.count = 0)
    ∧ (∀ w, boxDegraded w →
      (syncSimulationBox w).2 = {}
      ∧ (syncSimulationBox w).2.matrix.empty = true
      ∧ (syncSimulationBox w).2.origin.empty = true
      ∧ (syncSimulationBox w).2.lengths.empty = true)
    ∧ (∀ (w : WebState) (openResult : Option SimState),
        start w openResult = Except.error "Failed to open LAMMPS instance"
          ↔ openResult = none) := by
  refine ⟨?_, ?_, ?_, ?_⟩
  · intro w wrapped h
    rw [captureParticles_degraded w wrapped h]
    exact ⟨rfl, rfl, rfl, rfl, rfl⟩
  · intro w wrapped h
    rw [captureBonds_degraded w wrapped h]
    exact ⟨rfl, rfl, rfl, rfl⟩
  · intro w h
    rw [syncSimulationBox_degraded w h]
    exact ⟨rfl, rfl, rfl, rfl⟩
  · intro w openResult
    constructor
    · intro h
      cases openResult with
      | none => rfl
      | some inst => simp [start] at h
    · rintro rfl
      rfl

/-- Witness for `capture_fail_soft` on an engine with no active
simulation. -/
theorem capture_fail_soft_witness :
    ((captureParticles idleWeb false).2 = {}
      ∧ (captureParticles idleWeb false).2.positions.empty = true
      ∧ (captureParticles idleWeb false).2.ids.empty = true
      ∧ (captureParticles idleWeb false).2.types.empty = true
      ∧ (captureParticles idleWeb false).2.count = 0)
    ∧ ((captureBonds idleWeb false).2 = {}
      ∧ (captureBonds idleWeb false).2.first.empty = true
      ∧ (captureBonds idleWeb false).2.second.empty = true
      ∧ (captureBonds idleWeb false).2.count = 0)
    ∧ ((syncSimulationBox idleWeb).2 = {}
      ∧ (syncSimulationBox idleWeb).2.matrix.empty = true
      ∧ (syncSimulationBox idleWeb).2.origin.empty = true
      ∧ (syncSimulationBox idleWeb).2.lengths.empty = true)
    ∧ (start idleWeb none = Except.error "Failed to open LAMMPS instance"
        ↔ (none : Option SimState) = none) :=
  ⟨capture_fail_soft.1 idleWeb false trivial,
   capture_fail_soft.2.1 idleWeb false trivial,
   capture_fail_soft.2.2.1 idleWeb trivial,
   capture_fail_soft.2.2.2 idleWeb none⟩

/-- C9: calling any capture twice in a row on the same engine state (no
intervening engine mutation) returns the same updated buffers and the
same snapshot — bit-identical buffer contents and equal counts. -/
theorem capture_idempotent (w : WebState) (wrapped : Bool) :
    captureParticles (captureParticles w wrapped).1 wrapped
      = captureParticles w wrapped
    ∧ captureBonds (captureBonds w wrapped).1 wrapped
      = captureBonds w wrapped
    ∧ syncSimulationBox (syncSimulationBox w).1
      = syncSimulationBox w := by
  refine ⟨?_, ?_, ?_⟩
  · rcases particles_cases w with h | ⟨sim, atom, domain, h1, h2, h3, hn⟩
    · rw [captureParticles_degraded w wrapped h]
      exact captureParticles_degraded _ wrapped h
    · rw [captureParticles_active w wrapped sim atom domain h1 h2 h3 hn]
      exact captureParticles_active _ wrapped sim atom domain h1 h2 h3 hn
  · rcases bonds_cases w with h |
      ⟨sim, atom, domain, numBond, bondAtom, h1, h2, h3, h4, h5, hn⟩
    · rw [captureBonds_degraded w wrapped h]
      exact captureBonds_degraded _ wrapped h
    · rw [captureBonds_active w wrapped sim atom domain numBond bondAtom
        h1 h2 h3 h4 h5 hn]
      exact captureBonds_active _ wrapped sim atom domain numBond bondAtom
        h1 h2 h3 h4 h5 hn
  · rcases box_cases w with h | ⟨sim, domain, h1, h2⟩
    · rw [syncSimulationBox_degraded w h]
      exact syncSimulationBox_degraded _ h
    · rw [syncSimulationBox_active w sim domain h1 h2]
      exact syncSimulationBox_active _ sim domain h1 h2

/-- C3 counterexample: on a zero-atom engine whose id field is present
(`idPtr ≠ 0`), the captured snapshot's id view is empty anyway — the
capture returns the default snapshot before querying the engine's id and
type fields, refuting "resolving to empty views only if the engine has no
such field". -/
theorem zero_atom_ids_counterexample :
    (captureParticles zeroAtomWeb false).2.ids.empty = true
    ∧ zeroAtomAtom.idPtr ≠ 0 := by
  exact ⟨rfl, by decide⟩

/-- C3 amended: for a particle capture on an engine with an active
simulation, atom table and domain but zero atoms, the returned snapshot
is the value-initialized snapshot — count = 0, cleared position buffer,
and default-empty id and type views regardless of the engine's id/type
fields (the capture returns before querying them). -/
theorem zero_atom_capture (w : WebState) (wrapped : Bool) (sim : SimState)
    (atom : AtomState) (domain : DomainState) (h1 : w.lmp = some sim)
    (h2 : sim.atom = some atom) (h3 : sim.domain = some domain)
    (hn : atom.natoms = 0) :
    captureParticles w wrapped = ({ w with particlePositions := [] }, {}) := by
  apply captureParticles_degraded
  unfold particlesDegraded
  rw [h1]
  simp [h2, h3, hn]

/-- Witness for `zero_atom_capture` on the zero-atom engine. -/
theorem zero_atom_capture_witness :
    captureParticles zeroAtomWeb false
      = ({ zeroAtomWeb with particlePositions := [] }, {}) :=
  zero_atom_capture zeroAtomWeb false zeroAtomSim zeroAtomAtom
    exampleDomain rfl rfl rfl rfl

/-- C5: for a particle capture on an engine with atoms present, the
snapshot's count equals the engine's reported atom count at capture time,
and when the id and type pass-through sources are present the positions,
ids and types views all report that same count. -/
theorem particle_counts_agree (w : WebState) (wrapped : Bool)
    (sim : SimState) (atom : AtomState) (domain : DomainState)
    (h1 : w.lmp = some sim) (h2 : sim.atom = some atom)
    (h3 : sim.domain = some domain) (hn : atom.natoms ≠ 0)
    (hid : atom.idPtr ≠ 0) (hty : atom.typePtr ≠ 0)
    (haddr : w.addrPositions ≠ 0) :
    (captureParticles w wrapped).2.count = atom.natoms
    ∧ (captureParticles w wrapped).2.positions.count = atom.natoms
    ∧ (captureParticles w wrapped).2.ids.count = atom.natoms
    ∧ (captureParticles w wrapped).2.types.count = atom.natoms := by
  rw [captureParticles_active w wrapped sim atom domain h1 h2 h3 hn]
  have hdiv : (3 : Nat) * atom.natoms / 3 = atom.natoms :=
    Nat.mul_div_cancel_left _ (by norm_num)
  refine ⟨rfl, ?_, ?_, ?_⟩
  · have hne : particleList domain (extractImage wrapped atom) atom ≠ [] := by
      intro hnil
      have hl := particleList_length domain (extractImage wrapped atom) atom
      rw [hnil] at hl
      simp only [List.length_nil] at hl
      exact hn (by omega)
    rw [makeViewVec_of_nonempty _ _ _ _ hne haddr]
    simp [BufferView.count, particleList_length, hdiv]
  · rw [makeRawView_of_present _ _ _ _ hid hn (by norm_num)]
    simp [BufferView.count]
  · rw [makeRawView_of_present _ _ _ _ hty hn (by norm_num)]
    simp [BufferView.count]

/-- Witness for `particle_counts_agree` on the two-atom example engine. -/
theorem particle_counts_agree_witness :
    (captureParticles exampleWeb false).2.count = exampleAtom.natoms
    ∧ (captureParticles exampleWeb false).2.positions.count
        = exampleAtom.natoms
    ∧ (captureParticles exampleWeb false).2.ids.count = exampleAtom.natoms
    ∧ (captureParticles exampleWeb false).2.types.count
        = exampleAtom.natoms :=
  particle_counts_agree exampleWeb false exampleSim exampleAtom
    exampleDomain rfl rfl rfl (by decide) (by decide) (by decide)
    (by decide)

/-- C10: every bond capture appends exactly three scalars to the
second-endpoint buffer for every three appended to the first-endpoint
buffer, so the two buffers always have identical length, and the
snapshot's count equals `first.count()`, `second.count()` and the first
buffer's length divided by 3. -/
theorem bond_buffers_paired (w : WebState) (wrapped : Bool)
    (ha1 : w.addrBonds1 ≠ 0) (ha2 : w.addrBonds2 ≠ 0) :
    (captureBonds w wrapped).1.bondsPosition1.length
      = (captureBonds w wrapped).1.bondsPosition2.length
    ∧ (captureBonds w wrapped).2.count
      = (captureBonds w wrapped).2.first.count
    ∧ (captureBonds w wrapped).2.count
      = (captureBonds w wrapped).2.second.count
    ∧ (captureBonds w wrapped).2.count
      = (captureBonds w wrapped).1.bondsPosition1.length / 3 := by
  rcases bonds_cases w with h |
    ⟨sim, atom, domain, numBond, bondAtom, h1, h2, h3, h4, h5, hn⟩
  · rw [captureBonds_degraded w wrapped h]
    refine ⟨rfl, ?_, ?_, ?_⟩ <;> simp [BufferView.count]
  · rw [captureBonds_active w wrapped sim atom domain numBond bondAtom
      h1 h2 h3 h4 h5 hn]
    have hlen1 := flattenFirst_length
      (collectBonds domain (extractImage wrapped atom) atom numBond
        bondAtom (shareFlag sim) wrapped)
    have hlen2 := flattenSecond_length
      (collectBonds domain (extractImage wrapped atom) atom numBond
        bondAtom (shareFlag sim) wrapped)
    by_cases hp : collectBonds domain (extractImage wrapped atom) atom
        numBond bondAtom (shareFlag sim) wrapped = []
    · rw [hp]
      exact ⟨rfl, rfl, rfl, rfl⟩
    · have hk : 0 < (collectBonds domain (extractImage wrapped atom) atom
          numBond bondAtom (shareFlag sim) wrapped).length :=
        List.length_pos.mpr hp
      have hne1 : flattenFirst (collectBonds domain
          (extractImage wrapped atom) atom numBond bondAtom (shareFlag sim)
          wrapped) ≠ [] := by
        intro hnil
        rw [hnil] at hlen1
        simp only [List.length_nil] at hlen1
        omega
      have hne2 : flattenSecond (collectBonds domain
          (extractImage wrapped atom) atom numBond bondAtom (shareFlag sim)
          wrapped) ≠ [] := by
        intro hnil
        rw [hnil] at hlen2
        simp only [List.length_nil] at hlen2
        omega
      rw [makeViewVec_of_nonempty _ _ _ _ hne1 ha1,
        makeViewVec_of_nonempty _ _ _ _ hne2 ha2]
      refine ⟨by rw [hlen1, hlen2], rfl, ?_, rfl⟩
      simp [BufferView.count, hlen1, hlen2]

/-- Witness for `bond_buffers_paired` on the two-atom bonded example. -/
theorem bond_buffers_paired_witness :
    (captureBonds exampleWeb false).1.bondsPosition1.length
      = (captureBonds exampleWeb false).1.bondsPosition2.length
    ∧ (captureBonds exampleWeb false).2.count
      = (captureBonds exampleWeb false).2.first.count
    ∧ (captureBonds exampleWeb false).2.count
      = (captureBonds exampleWeb false).2.second.count
    ∧ (captureBonds exampleWeb false).2.count
      = (captureBonds exampleWeb false).1.bondsPosition1.length / 3 :=
  bond_buffers_paired exampleWeb false (by decide) (by decide)

/-- C8: with an active domain, the captured box's matrix rows are the
three lattice vectors `corners[1]−corners[0]`, `corners[2]−corners[0]`,
`corners[4]−corners[0]` (the corner table being the result of the
`box_corners()` recompute the capture requests), the origin buffer is the
origin corner and the lengths buffer is the three per-axis periodic
lengths; with no domain/geometry context the capture fails soft with
zeroed buffers and the default snapshot. -/
theorem box_capture_geometry (w : WebState) :
    (∀ sim domain, w.lmp = some sim → sim.domain = some domain →
      (syncSimulationBox w).1.cellMatrix =
        [(domain.corners 1).x - (domain.corners 0).x,
         (domain.corners 1).y - (domain.corners 0).y,
         (domain.corners 1).z - (domain.corners 0).z,
         (domain.corners 2).x - (domain.corners 0).x,
         (domain.corners 2).y - (domain.corners 0).y,
         (domain.corners 2).z - (domain.corners 0).z,
         (domain.corners 4).x - (domain.corners 0).x,
         (domain.corners 4).y - (domain.corners 0).y,
         (domain.corners 4).z - (domain.corners 0).z]
      ∧ (syncSimulationBox w).1.origo =
        [(domain.corners 0).x, (domain.corners 0).y, (domain.corners 0).z]
      ∧ (syncSimulationBox w).1.boxSize =
        [domain.prd 0, domain.prd 1, domain.prd 2])
    ∧ (boxDegraded w →
      (syncSimulationBox w).1.cellMatrix = List.replicate 9 0
      ∧ (syncSimulationBox w).1.origo = List.replicate 3 0
      ∧ (syncSimulationBox w).1.boxSize = List.replicate 3 0
      ∧ (syncSimulationBox w).2 = {}) := by
  constructor
  · intro sim domain h1 h2
    rw [syncSimulationBox_active w sim domain h1 h2]
    exact ⟨rfl, rfl, rfl⟩
  · intro h
    rw [syncSimulationBox_degraded w h]
    exact ⟨rfl, rfl, rfl, rfl⟩

/-- Witness for `box_capture_geometry` on the example domain. -/
theorem box_capture_geometry_witness :
    (syncSimulationBox exampleWeb).1.cellMatrix =
      [(exampleDomain.corners 1).x - (exampleDomain.corners 0).x,
       (exampleDomain.corners 1).y - (exampleDomain.corners 0).y,
       (exampleDomain.corners 1).z - (exampleDomain.corners 0).z,
       (exampleDomain.corners 2).x - (exampleDomain.corners 0).x,
       (exampleDomain.corners 2).y - (exampleDomain.corners 0).y,
       (exampleDomain.corners 2).z - (exampleDomain.corners 0).z,
       (exampleDomain.corners 4).x - (exampleDomain.corners 0).x,
       (exampleDomain.corners 4).y - (exampleDomain.corners 0).y,
       (exampleDomain.corners 4).z - (exampleDomain.corners 0).z]
    ∧ (syncSimulationBox exampleWeb).1.origo =
      [(exampleDomain.corners 0).x, (exampleDomain.corners 0).y,
       (exampleDomain.corners 0).z]
    ∧ (syncSimulationBox exampleWeb).1.boxSize =
      [exampleDomain.prd 0, exampleDomain.prd 1, exampleDomain.prd 2] :=
  (box_capture_geometry exampleWeb).1 exampleSim exampleDomain rfl rfl

theorem length_flatMap_eq_sum {α β : Type} (l : List α) (f : α → List β) :
    (l.flatMap f).length = (l.map fun a => (f a).length).sum := by
  induction l with
  | nil => rfl
  | cons a t ih => simp [List.flatMap_cons, ih]

/-- With symmetric sharing disabled, a bond entry is emitted exactly when
its partner is resident and the owner index is not less than the partner
index. -/
theorem bondEntry_isSome (domain : DomainState) (image : Option (Nat → Int))
    (atom : AtomState) (bondAtom : Nat → Nat → Nat) (wrapped : Bool)
    (i b : Nat) :
    (bondEntry domain image atom bondAtom false wrapped i b).isSome = true
      ↔ partnerResident atom bondAtom i b = true
        ∧ partnerIndex atom bondAtom i b ≤ i := by
  unfold bondEntry
  by_cases hres : atom.map (bondAtom i b) < 0
      ∨ (atom.natoms : Int) ≤ atom.map (bondAtom i b)
  · rw [if_pos hres]
    simp only [Option.isSome_none, Bool.false_eq_true, false_iff]
    rintro ⟨hr, -⟩
    rw [partnerResident, decide_eq_true_iff] at hr
    rcases hres with h | h
    · exact absurd hr.1 (not_le.mpr h)
    · exact absurd hr.2 (not_lt.mpr h)
  · rw [if_neg hres]
    push_neg at hres
    have hr : partnerResident atom bondAtom i b = true := by
      rw [partnerResident, decide_eq_true_iff]
      exact ⟨hres.1, hres.2⟩
    by_cases hlt : i < (atom.map (bondAtom i b)).toNat
    · rw [if_pos (by simp [hlt])]
      simp only [Option.isSome_none, Bool.false_eq_true, false_iff]
      rintro ⟨-, hle⟩
      rw [partnerIndex] at hle
      omega
    · rw [if_neg (by simp [hlt])]
      cases wrapped <;>
        simp [hr, partnerIndex, Nat.le_of_not_lt hlt]

/-- With symmetric sharing disabled and no self-resolving entries, the
number of emitted bonds equals the number of resident entries whose owner
index strictly exceeds the partner index. -/
theorem collectBonds_count (domain : DomainState)
    (image : Option (Nat → Int)) (atom : AtomState) (numBond : Nat → Nat)
    (bondAtom : Nat → Nat → Nat) (wrapped : Bool)
    (hnoself : ∀ i, i < atom.natoms → ∀ b, b < numBond i →
      partnerResident atom bondAtom i b = true →
      partnerIndex atom bondAtom i b ≠ i) :
    (collectBonds domain image atom numBond bondAtom false wrapped).length
      = strictBondCount atom numBond bondAtom := by
  unfold collectBonds strictBondCount
  rw [length_flatMap_eq_sum, length_flatMap_eq_sum]
  congr 1
  apply List.map_congr_left
  intro i hi
  rw [List.mem_range] at hi
  rw [List.length_filterMap_eq_countP, ← List.countP_eq_length_filter]
  apply List.countP_congr
  intro b hb
  rw [List.mem_range] at hb
  rw [bondEntry_isSome domain image atom bondAtom wrapped i b]
  constructor
  · rintro ⟨hr, hle⟩
    rw [Bool.and_eq_true, decide_eq_true_iff]
    exact ⟨hr, Nat.lt_of_le_of_ne hle (hnoself i hi b hb hr)⟩
  · intro hb'
    rw [Bool.and_eq_true, decide_eq_true_iff] at hb'
    exact ⟨hb'.1, Nat.le_of_lt hb'.2⟩

/-- C1: for a bond capture with symmetric bond-ownership sharing
disabled, a bond from owner local index `i` to a resolved resident
partner local index `j` is emitted iff `i` is not less than `j`; and
when no entry resolves a partner to its own owner, the emitted bond count
equals the number of bond-table entries with resident partner and owner
index strictly greater than partner index — no pair double-counted, no
valid resident pair omitted. -/
theorem bond_dedup (w : WebState) (wrapped : Bool) (sim : SimState)
    (atom : AtomState) (domain : DomainState) (numBond : Nat → Nat)
    (bondAtom : Nat → Nat → Nat)
    (h1 : w.lmp = some sim) (h2 : sim.atom = some atom)
    (h3 : sim.domain = some domain) (h4 : atom.num_bond = some numBond)
    (h5 : atom.bond_atom = some bondAtom) (hn : atom.nbonds ≠ 0)
    (hshare : shareFlag sim = false)
    (hnoself : ∀ i, i < atom.natoms → ∀ b, b < numBond i →
      partnerResident atom bondAtom i b = true →
      partnerIndex atom bondAtom i b ≠ i) :
    (∀ i b,
      (bondEntry domain (extractImage wrapped atom) atom bondAtom
          (shareFlag sim) wrapped i b).isSome = true
        ↔ partnerResident atom bondAtom i b = true
          ∧ partnerIndex atom bondAtom i b ≤ i)
    ∧ (captureBonds w wrapped).2.count
        = strictBondCount atom numBond bondAtom := by
  constructor
  · intro i b
    rw [hshare]
    exact bondEntry_isSome domain (extractImage wrapped atom) atom bondAtom
      wrapped i b
  · rw [captureBonds_active w wrapped sim atom domain numBond bondAtom
      h1 h2 h3 h4 h5 hn]
    show (flattenFirst (collectBonds domain (extractImage wrapped atom)
      atom numBond bondAtom (shareFlag sim) wrapped)).length / 3
        = strictBondCount atom numBond bondAtom
    rw [flattenFirst_length, Nat.mul_div_cancel_left _ (by norm_num),
      hshare]
    exact collectBonds_count domain (extractImage wrapped atom) atom
      numBond bondAtom wrapped hnoself

/-- Witness for `bond_dedup` on the two-atom bonded example: the directed
entry owner 1 → partner 0 is emitted and the capture reports exactly one
bond. -/
theorem bond_dedup_witness :
    ((bondEntry exampleDomain (extractImage false exampleAtom) exampleAtom
        (fun i _ => if i == 0 then 2 else 1) (shareFlag exampleSim) false
        1 0).isSome = true
      ↔ partnerResident exampleAtom
          (fun i _ => if i == 0 then 2 else 1) 1 0 = true
        ∧ partnerIndex exampleAtom
            (fun i _ => if i == 0 then 2 else 1) 1 0 ≤ 1)
    ∧ (captureBonds exampleWeb false).2.count
        = strictBondCount exampleAtom (fun i => if i < 2 then 1 else 0)
            (fun i _ => if i == 0 then 2 else 1) := by
  have h := bond_dedup exampleWeb false exampleSim exampleAtom
    exampleDomain (fun i => if i < 2 then 1 else 0)
    (fun i _ => if i == 0 then 2 else 1) rfl rfl rfl rfl rfl (by decide)
    rfl (by decide)
  exact ⟨h.1 1 0, h.2⟩

/-- The minimum-image correction leaves each periodic component within
half the periodic length in absolute value. -/
theorem abs_minImageComp_le (L d : ℚ) (hL : 0 < L) :
    |minImageComp true L d| ≤ L / 2 := by
  unfold minImageComp
  rw [if_pos rfl]
  have hL0 : L ≠ 0 := ne_of_gt hL
  have hcancel : L * (d / L) = d := by
    field_simp
  have hkey : d - L * (round (d / L) : ℚ)
      = L * (d / L - (round (d / L) : ℚ)) := by
    rw [mul_sub, hcancel]
  rw [hkey, abs_mul, abs_of_pos hL]
  calc L * |d / L - (round (d / L) : ℚ)| ≤ L * (1 / 2) :=
        mul_le_mul_of_nonneg_left (abs_sub_round (d / L)) (le_of_lt hL)
    _ = L / 2 := by ring

theorem vec_add_sub_cancel (a v : Vec3) : (a.add v).sub a = v := by
  cases a
  cases v
  simp [Vec3.add, Vec3.sub]

theorem minImage_comp (domain : DomainState) (d : Vec3) (a : Fin 3) :
    (minImage domain d).comp a
      = minImageComp (domain.periodic a) (domain.prd a) (d.comp a) := by
  fin_cases a <;> rfl

/-- C2: in an unwrapped bond capture (image data available), the endpoint
buffers flatten the emitted pair list, and every emitted pair consists of
the owner's boundary-unwrapped position and that position plus the
minimum-image correction of the displacement to the partner's unwrapped
position; consequently each periodic component of the emitted segment is
at most half that axis's periodic length, and the segment's Euclidean
length never exceeds half a periodic length plus the true interatomic
bond distance (the minimum-image distance between the two atoms). -/
theorem bond_minimum_image (w : WebState) (sim : SimState)
    (atom : AtomState) (domain : DomainState) (numBond : Nat → Nat)
    (bondAtom : Nat → Nat → Nat) (img : Nat → Int)
    (h1 : w.lmp = some sim) (h2 : sim.atom = some atom)
    (h3 : sim.domain = some domain) (h4 : atom.num_bond = some numBond)
    (h5 : atom.bond_atom = some bondAtom) (hn : atom.nbonds ≠ 0)
    (himg : atom.imageField = some img) :
    (captureBonds w false).1.bondsPosition1
      = flattenFirst (collectBonds domain (some img) atom numBond bondAtom
          (shareFlag sim) false)
    ∧ (captureBonds w false).1.bondsPosition2
      = flattenSecond (collectBonds domain (some img) atom numBond bondAtom
          (shareFlag sim) false)
    ∧ ∀ pr ∈ collectBonds domain (some img) atom numBond bondAtom
        (shareFlag sim) false,
        ∃ i j, i < atom.natoms ∧ j < atom.natoms
          ∧ pr.1 = domain.unmap (atom.x i) (img i)
          ∧ pr.2 = pr.1.add (minImage domain
              ((domain.unmap (atom.x j) (img j)).sub pr.1))
          ∧ (∀ a : Fin 3, domain.periodic a = true → 0 < domain.prd a →
              |(pr.2.sub pr.1).comp a| ≤ domain.prd a / 2)
          ∧ ∀ a : Fin 3, 0 ≤ domain.prd a →
              Real.sqrt (((pr.2.sub pr.1).normSq : ℚ) : ℝ)
                ≤ ((domain.prd a : ℚ) : ℝ) / 2
                  + Real.sqrt (((minImage domain
                      ((domain.unmap (atom.x j) (img j)).sub
                        (domain.unmap (atom.x i) (img i)))).normSq : ℚ) : ℝ) := by
  have himg' : extractImage false atom = some img := himg
  rw [captureBonds_active w false sim atom domain numBond bondAtom
    h1 h2 h3 h4 h5 hn, himg']
  refine ⟨rfl, rfl, ?_⟩
  intro pr hpr
  unfold collectBonds at hpr
  rw [List.mem_flatMap] at hpr
  obtain ⟨i, hi, hpr⟩ := hpr
  rw [List.mem_range] at hi
  rw [List.mem_filterMap] at hpr
  obtain ⟨b, -, hentry⟩ := hpr
  unfold bondEntry at hentry
  by_cases hres : atom.map (bondAtom i b) < 0
      ∨ (atom.natoms : Int) ≤ atom.map (bondAtom i b)
  · rw [if_pos hres] at hentry
    exact absurd hentry (by simp)
  · rw [if_neg hres] at hentry
    push_neg at hres
    by_cases hskip : ¬(shareFlag sim = true)
        ∧ i < (atom.map (bondAtom i b)).toNat
    · rw [if_pos hskip] at hentry
      exact absurd hentry (by simp)
    · rw [if_neg hskip] at hentry
      simp only [Bool.false_eq_true, if_false, Option.some.injEq] at hentry
      have hj : (atom.map (bondAtom i b)).toNat < atom.natoms := by
        obtain ⟨hm0, hmn⟩ := hres
        omega
      refine ⟨i, (atom.map (bondAtom i b)).toNat, hi, hj, ?_, ?_, ?_, ?_⟩
      · rw [← hentry]
        rfl
      · rw [← hentry]
        rfl
      · intro a hper hpos
        have hdiff : pr.2.sub pr.1 = minImage domain
            ((readPosition domain (some img) atom
                (atom.map (bondAtom i b)).toNat).sub
              (readPosition domain (some img) atom i)) := by
          rw [← hentry]
          exact vec_add_sub_cancel _ _
        rw [hdiff, minImage_comp, hper]
        exact abs_minImageComp_le _ _ hpos
      · intro a ha
        have hdiff : pr.2.sub pr.1 = minImage domain
            ((readPosition domain (some img) atom
                (atom.map (bondAtom i b)).toNat).sub
              (readPosition domain (some img) atom i)) := by
          rw [← hentry]
          exact vec_add_sub_cancel _ _
        rw [hdiff]
        have hcast : (0 : ℝ) ≤ ((domain.prd a : ℚ) : ℝ) := by
          exact_mod_cast ha
        have hs := Real.sqrt_nonneg (((minImage domain
            ((readPosition domain (some img) atom
                (atom.map (bondAtom i b)).toNat).sub
              (readPosition domain (some img) atom i))).normSq : ℚ) : ℝ)
        have hrp : readPosition domain (some img) atom i
            = domain.unmap (atom.x i) (img i) := rfl
        have hrpj : readPosition domain (some img) atom
            (atom.map (bondAtom i b)).toNat
            = domain.unmap (atom.x (atom.map (bondAtom i b)).toNat)
                (img (atom.map (bondAtom i b)).toNat) := rfl
        rw [hrp, hrpj] at hs ⊢
        linarith

/-- Witness for `bond_minimum_image` on the two-atom bonded example. -/
theorem bond_minimum_image_witness :
    (captureBonds exampleWeb false).1.bondsPosition1
      = flattenFirst (collectBonds exampleDomain (some fun _ => 0)
          exampleAtom (fun i => if i < 2 then 1 else 0)
          (fun i _ => if i == 0 then 2 else 1) (shareFlag exampleSim)
          false) :=
  (bond_minimum_image exampleWeb exampleSim exampleAtom exampleDomain
    (fun i => if i < 2 then 1 else 0) (fun i _ => if i == 0 then 2 else 1)
    (fun _ => 0) rfl rfl rfl rfl rfl (by decide) rfl).1

end LammpsWeb
